import Mathlib

/-!
Verification of the Swagger-to-JMeter test-plan compiler
(src/src/components/SwaggerToJMeter.tsx) against its specification.

The source is TypeScript operating on dynamically typed parsed JSON/YAML
documents. The shallow embedding below models such documents as the
inductive `Json` (mappings are ordered association lists, which matches
JavaScript object insertion order for the string keys used by OpenAPI
documents), JavaScript numbers as exact rationals (`Rat`; the source never
produces NaN/Infinity on the modelled paths), and the two impure inputs of
sample synthesis as explicit parameters: `Math.random()` becomes a stream
`rand : Nat -> Rat` consumed at a threaded index, and
`new Date().getFullYear()` becomes a parameter `year : Int`.

The recursive sample synthesizer `generateSampleJson` in the source has no
termination argument at all (that is the subject of claim C1), so its
embedding is indexed by explicit fuel: a `none` result means the source
function does not return within that recursion depth.
-/

namespace SwaggerToJMeter

/-- A parsed JSON/YAML document, as produced by `JSON.parse` / `yaml.load`
in the source. Objects keep key insertion order. -/
inductive Json where
  | null
  | bool (b : Bool)
  | num (q : Rat)
  | str (s : String)
  | arr (elems : List Json)
  | obj (fields : List (String × Json))
deriving Repr

/-- JavaScript truthiness of a parsed value (`undefined` is represented by
`Option.none` at use sites; NaN does not arise in the model). -/
def jsTruthy : Json → Bool
  | .null => false
  | .bool b => b
  | .num q => q != 0
  | .str s => s != ""
  | .arr _ => true
  | .obj _ => true

/-- First binding of `key` in an association list (JavaScript objects cannot
hold duplicate keys, so parsed documents bind each key once). -/
def findField : List (String × Json) → String → Option Json
  | [], _ => none
  | (k, v) :: rest, key => if k = key then some v else findField rest key

/-- JavaScript property read `j.key` on a parsed value: `some` when the
property exists, `none` for `undefined` (including reads on non-objects;
string/array exotic properties such as `.length` are outside the model). -/
def lookup : Json → String → Option Json
  | .obj fs, key => findField fs key
  | _, _ => none

/-- Digits-only string to a number, for JavaScript array indexing `a["3"]`.
(Non-canonical numerals such as "01" index nothing in JavaScript; the
difference is unreachable for the documents considered here.) -/
def digitsToNat? : List Char → Option Nat
  | [] => none
  | cs => if cs.all (fun c => c.isDigit) then
      some (cs.foldl (fun acc c => acc * 10 + (c.toNat - '0'.toNat)) 0)
    else none

/-- JavaScript bracket access `j?.[seg]` as used by the reference walker and
`servers?.[0]`: objects by key, arrays by numeric index, `undefined`
otherwise. -/
def jsIndex (j : Json) (seg : String) : Option Json :=
  match j with
  | .obj fs => findField fs seg
  | .arr xs => match digitsToNat? seg.data with
    | some i => xs.get? i
    | none => none
  | _ => none

/-- `String.prototype.replace('#/', '')`: remove the first occurrence of
the two-character pattern. -/
def replaceFirstHashSlash : List Char → List Char
  | [] => []
  | '#' :: '/' :: rest => rest
  | c :: rest => c :: replaceFirstHashSlash rest

/-- `String.prototype.split('/')`. -/
def splitOnSlashChars : List Char → List (List Char)
  | [] => [[]]
  | '/' :: rest => [] :: splitOnSlashChars rest
  | c :: rest =>
    match splitOnSlashChars rest with
    | seg :: segs => (c :: seg) :: segs
    | [] => [[c]]

/-- `schema.$ref.replace('#/', '').split('/')` (source line 123). -/
def refSegments (r : String) : List String :=
  (splitOnSlashChars (replaceFirstHashSlash r.data)).map String.mk

/-- The segment walk of `resolveSchema`: successive `resolved?.[segment]`
lookups starting from the document root (source lines 124-127). -/
def walkRef (spec : Json) (segs : List String) : Option Json :=
  segs.foldl (fun acc seg => acc.bind (fun j => jsIndex j seg)) (some spec)

/-- `resolveSchema` (source lines 121-131): if the schema carries a truthy
`$ref`, walk the pointer from the document root and return
`resolved || {}`; otherwise return the schema unchanged. A truthy
non-string `$ref` would throw in the source and is outside the model. -/
def resolveSchema (schema : Json) (spec : Json) : Json :=
  match lookup schema "$ref" with
  | some r =>
    if jsTruthy r then
      match r with
      | .str refStr =>
        match walkRef spec (refSegments refStr) with
        | some v => if jsTruthy v then v else Json.obj []
        | none => Json.obj []
      | _ => Json.obj []
    else schema
  | none => schema

/-- ASCII case folding, as `String.prototype.toLowerCase` behaves on the
ASCII property names the source compares. -/
def jsToLower (s : String) : String := String.mk (s.data.map Char.toLower)

/-- ASCII case raising, as `String.prototype.toUpperCase` behaves on the
lowercase HTTP method names the source upcases. -/
def jsToUpper (s : String) : String := String.mk (s.data.map Char.toUpper)

/-- Whether `pat` is an initial segment of `s`. -/
def leadsWith : List Char → List Char → Bool
  | [], _ => true
  | _ :: _, [] => false
  | p :: ps, c :: cs => p == c && leadsWith ps cs

/-- `String.prototype.includes`: substring containment. -/
def includesChars (pat : List Char) : List Char → Bool
  | [] => pat.isEmpty
  | s@(_ :: rest) => leadsWith pat s || includesChars pat rest

/-- `hay.includes(pat)` on strings. -/
def includesStr (hay pat : String) : Bool := includesChars pat.data hay.data

/-- `propertyName.charAt(0).toUpperCase() + propertyName.slice(1)`
(source line 179). -/
def capitalizeFirst (s : String) : String :=
  match s.data with
  | [] => ""
  | c :: rest => String.mk (Char.toUpper c :: rest)

/-- `Math.floor` on the exact rational standing in for a JavaScript
number. -/
def jsFloor (q : Rat) : Int := q.floor

/-- Decimal digits of a natural number, most significant first, on a fuel
that the wrapper makes sufficient. -/
def natToCharsCore : Nat → Nat → List Char
  | 0, _ => []
  | fuel + 1, n =>
    if n < 10 then [Nat.digitChar n]
    else natToCharsCore fuel (n / 10) ++ [Nat.digitChar (n % 10)]

/-- Decimal rendering of a natural number, as JavaScript `String(n)`
prints it. -/
def natToChars (n : Nat) : List Char := natToCharsCore (n + 1) n

/-- Decimal rendering of an integer, as JavaScript prints it. -/
def intToChars : Int → List Char
  | .ofNat n => natToChars n
  | .negSucc n => '-' :: natToChars (n + 1)

/-- The name-keyed heuristic of the `string` synthesis case (source lines
176-189), threading the shared `idCounter`: `some (value, nextCounter)`
when one of the substring tests fires, `none` to fall through to the
enum/default handling. -/
def stringNameValue (idCounter : Nat) (propertyName : String) :
    Option (Json × Nat) :=
  let lowerName := jsToLower propertyName
  if includesStr lowerName "id" then
    some (Json.str (String.mk (natToChars idCounter)), idCounter + 1)
  else if includesStr lowerName "name" then
    some (Json.str ("sample" ++ capitalizeFirst propertyName), idCounter)
  else if includesStr lowerName "email" then
    some (Json.str "sample@example.com", idCounter)
  else if includesStr lowerName "url" || includesStr lowerName "link" then
    some (Json.str "https://example.com", idCounter)
  else if includesStr lowerName "phone" then
    some (Json.str "+1234567890", idCounter)
  else if includesStr lowerName "address" then
    some (Json.str "123 Sample St", idCounter)
  else if includesStr lowerName "city" then
    some (Json.str "Sample City", idCounter)
  else if includesStr lowerName "country" then
    some (Json.str "Sample Country", idCounter)
  else if includesStr lowerName "description" || includesStr lowerName "comment" then
    some (Json.str "Sample description", idCounter)
  else if includesStr lowerName "status" then
    some (Json.str "active", idCounter)
  else if includesStr lowerName "type" || includesStr lowerName "category" then
    some (Json.str "sample", idCounter)
  else none

/-- The `enum` check of the `string` case (source lines 192-194): a truthy
`enum` with positive length yields its first element. (A truthy non-array
`enum` would hit JavaScript string indexing and is outside the model.) -/
def enumHead (resolvedSchema : Json) : Option Json :=
  match lookup resolvedSchema "enum" with
  | some (Json.arr (v :: _)) => some v
  | _ => none

/-- The `string` case of `generateSampleJson` (source lines 174-196): the
property-name heuristic first, then the enum head, then `"sample"`. -/
def synthString (resolvedSchema : Json) (propertyName : Option String)
    (idCounter ri : Nat) : Option (Json × Nat × Nat) :=
  match propertyName with
  | some n =>
    match stringNameValue idCounter n with
    | some (v, c) => some (v, c, ri)
    | none =>
      match enumHead resolvedSchema with
      | some v => some (v, idCounter, ri)
      | none => some (Json.str "sample", idCounter, ri)
  | none =>
    match enumHead resolvedSchema with
    | some v => some (v, idCounter, ri)
    | none => some (Json.str "sample", idCounter, ri)

/-- The name-keyed heuristic of the `integer` case (source lines 200-209).
`Math.floor(Math.random() * 12) + 1` and the day analogue read the random
stream at the threaded index `ri` and advance it. -/
def integerNameValue (idCounter ri : Nat) (rand : Nat → Rat) (year : Int)
    (propertyName : String) : Option (Json × Nat × Nat) :=
  let lowerName := jsToLower propertyName
  if includesStr lowerName "id" then
    some (Json.num idCounter, idCounter + 1, ri)
  else if includesStr lowerName "count" || includesStr lowerName "quantity" then
    some (Json.num 5, idCounter, ri)
  else if includesStr lowerName "age" then
    some (Json.num 25, idCounter, ri)
  else if includesStr lowerName "year" then
    some (Json.num year, idCounter, ri)
  else if includesStr lowerName "month" then
    some (Json.num (jsFloor (rand ri * 12) + 1), idCounter, ri + 1)
  else if includesStr lowerName "day" then
    some (Json.num (jsFloor (rand ri * 28) + 1), idCounter, ri + 1)
  else if includesStr lowerName "price" || includesStr lowerName "amount" then
    some (Json.num 100, idCounter, ri)
  else none

/-- Numeric field read backing the `minimum !== undefined` /
`maximum !== undefined` checks (source lines 212-217, 231-236). A present
non-numeric bound would propagate NaN through `Math.max`/`Math.min` in the
source and is outside the model. -/
def getNumField (j : Json) (key : String) : Option Rat :=
  match lookup j key with
  | some (Json.num q) => some q
  | _ => none

/-- The bound handling shared by the `integer` and `number` cases:
`Math.max(minimum, 1)` when `minimum` is declared — returning early, so a
declared `maximum` is then ignored — else `Math.min(maximum, 100)` when
`maximum` is declared, else `1`. -/
def synthBounds (resolvedSchema : Json) (idCounter ri : Nat) :
    Option (Json × Nat × Nat) :=
  match getNumField resolvedSchema "minimum" with
  | some m => some (Json.num (max m 1), idCounter, ri)
  | none =>
    match getNumField resolvedSchema "maximum" with
    | some mx => some (Json.num (min mx 100), idCounter, ri)
    | none => some (Json.num 1, idCounter, ri)

/-- The `integer` case of `generateSampleJson` (source lines 198-219). -/
def synthInteger (resolvedSchema : Json) (propertyName : Option String)
    (idCounter ri : Nat) (rand : Nat → Rat) (year : Int) :
    Option (Json × Nat × Nat) :=
  match propertyName with
  | some n =>
    match integerNameValue idCounter ri rand year n with
    | some r => some r
    | none => synthBounds resolvedSchema idCounter ri
  | none => synthBounds resolvedSchema idCounter ri

/-- The name-keyed heuristic of the `number` case (source lines 223-229). -/
def numberNameValue (propertyName : String) : Option Json :=
  let lowerName := jsToLower propertyName
  if includesStr lowerName "price" || includesStr lowerName "amount"
      || includesStr lowerName "cost" then
    some (Json.num (9999 / 100))
  else if includesStr lowerName "rate" || includesStr lowerName "percentage" then
    some (Json.num (15 / 100))
  else if includesStr lowerName "weight" then
    some (Json.num (15 / 10))
  else if includesStr lowerName "height" then
    some (Json.num (175 / 100))
  else none

/-- The `number` case of `generateSampleJson` (source lines 221-238); the
bound fallbacks `1.0`/`100.0` coincide with the integer case's `1`/`100`
as exact rationals, as they do as JavaScript numbers. -/
def synthNumber (resolvedSchema : Json) (propertyName : Option String)
    (idCounter ri : Nat) : Option (Json × Nat × Nat) :=
  match propertyName with
  | some n =>
    match numberNameValue n with
    | some v => some (v, idCounter, ri)
    | none => synthBounds resolvedSchema idCounter ri
  | none => synthBounds resolvedSchema idCounter ri

/-- The name-keyed heuristic of the `boolean` case (source lines 241-245). -/
def booleanNameValue (propertyName : String) : Option Json :=
  let lowerName := jsToLower propertyName
  if includesStr lowerName "active" || includesStr lowerName "enabled"
      || includesStr lowerName "available" then
    some (Json.bool true)
  else if includesStr lowerName "deleted" || includesStr lowerName "disabled"
      || includesStr lowerName "hidden" then
    some (Json.bool false)
  else none

/-- The `boolean` case of `generateSampleJson` (source lines 240-246). -/
def synthBoolean (propertyName : Option String) (idCounter ri : Nat) :
    Option (Json × Nat × Nat) :=
  match propertyName with
  | some n =>
    match booleanNameValue n with
    | some v => some (v, idCounter, ri)
    | none => some (Json.bool true, idCounter, ri)
  | none => some (Json.bool true, idCounter, ri)

/-- The `example` / `examples` preference of `generateSampleJson` (source
lines 148-156): a present `example` (even `null`: the source tests
`!== undefined`) is returned verbatim, else the first element of a
non-empty `examples` array. -/
def exampleOrExamples (resolvedSchema : Json) : Option Json :=
  match lookup resolvedSchema "example" with
  | some ex => some ex
  | none =>
    match lookup resolvedSchema "examples" with
    | some (Json.arr (v :: _)) => some v
    | _ => none

/-- One property-by-property pass of the `object` case (source lines
159-166): synthesize each declared property in declaration order with its
name passed down, threading the id counter and the random-stream index;
`none` when a recursive synthesis does not return. -/
def genProps (genF : Json → Option String → Nat → Nat → Option (Json × Nat × Nat)) :
    List (String × Json) → Nat → Nat → Option (List (String × Json) × Nat × Nat)
  | [], idCounter, ri => some ([], idCounter, ri)
  | (k, v) :: rest, idCounter, ri =>
    match genF v (some k) idCounter ri with
    | none => none
    | some (val, c, r) =>
      match genProps genF rest c r with
      | none => none
      | some (vals, c2, r2) => some ((k, val) :: vals, c2, r2)

/-- The `switch (resolvedSchema.type)` dispatch of `generateSampleJson`
(source lines 158-250), with the recursive occurrences abstracted as
`genF`: the seven string cases in source order, everything else falling to
the `default` arm's `null`. A truthy non-object `properties` value (whose
`Object.entries` would enumerate exotic entries in JavaScript) is outside
the model and treated as no declared properties. -/
def synthByType (rand : Nat → Rat) (year : Int)
    (genF : Json → Option String → Nat → Nat → Option (Json × Nat × Nat))
    (resolvedSchema : Json) (ty : String) (propertyName : Option String)
    (idCounter ri : Nat) : Option (Json × Nat × Nat) :=
  if ty = "object" then
    match lookup resolvedSchema "properties" with
    | some (Json.obj fs) =>
      (genProps genF fs idCounter ri).map
        (fun p => (Json.obj p.1, p.2.1, p.2.2))
    | _ => some (Json.obj [], idCounter, ri)
  else if ty = "array" then
    match lookup resolvedSchema "items" with
    | some items =>
      if jsTruthy items then
        (genF items none idCounter ri).map
          (fun p => (Json.arr [p.1], p.2.1, p.2.2))
      else some (Json.arr [], idCounter, ri)
    | none => some (Json.arr [], idCounter, ri)
  else if ty = "string" then synthString resolvedSchema propertyName idCounter ri
  else if ty = "integer" then
    synthInteger resolvedSchema propertyName idCounter ri rand year
  else if ty = "number" then synthNumber resolvedSchema propertyName idCounter ri
  else if ty = "boolean" then synthBoolean propertyName idCounter ri
  else some (Json.null, idCounter, ri)

/-- One unfolding of `generateSampleJson` (source lines 144-251), with the
recursive occurrences abstracted as `genF`: resolve a possible `$ref`,
prefer `example`/`examples`, then dispatch on `type` (a non-string or
absent `type` matches no switch case and yields the default `null`). -/
def generateSampleJsonStep (spec : Json) (rand : Nat → Rat) (year : Int)
    (genF : Json → Option String → Nat → Nat → Option (Json × Nat × Nat))
    (schema : Json) (propertyName : Option String) (idCounter ri : Nat) :
    Option (Json × Nat × Nat) :=
  let resolvedSchema := resolveSchema schema spec
  match exampleOrExamples resolvedSchema with
  | some ex => some (ex, idCounter, ri)
  | none =>
    match lookup resolvedSchema "type" with
    | some (Json.str ty) =>
      synthByType rand year genF resolvedSchema ty propertyName idCounter ri
    | _ => some (Json.null, idCounter, ri)

/-- `generateSampleJson` (source lines 144-251), indexed by fuel bounding
the recursion depth: `generateSampleJson spec rand year fuel schema name c r
= none` exactly when the source recursion starting at `schema` does not
return within depth `fuel` (the source has no such bound and overflows the
stack on cyclic schema graphs; see the C1 theorems). The result triple is
(value, next id counter, next random-stream index). -/
def generateSampleJson (spec : Json) (rand : Nat → Rat) (year : Int) :
    Nat → Json → Option String → Nat → Nat → Option (Json × Nat × Nat)
  | 0, _, _, _, _ => none
  | fuel + 1, schema, propertyName, idCounter, ri =>
    generateSampleJsonStep spec rand year (generateSampleJson spec rand year fuel)
      schema propertyName idCounter ri

/-- `Object.entries` on a parsed mapping. For non-objects the exotic
JavaScript enumerations (characters of a string, indices of an array) are
outside the model and yield no entries; no key of the seven-method list
can arise from them anyway. -/
def objEntries : Json → List (String × Json)
  | .obj fs => fs
  | _ => []

/-- The seven recognized lowercase HTTP method keys (source line 106). -/
def httpMethods : List String :=
  ["get", "post", "put", "delete", "patch", "head", "options"]

/-- One extracted operation (source lines 94-102): the raw property reads
are kept as optional parsed values. -/
structure Operation where
  path : String
  method : String
  operationId : Option Json
  summary : Option Json
  requestBody : Option Json
  tags : Option Json
deriving Repr

/-- `spec.paths || {}` as traversed by the extraction loop. -/
def pathsObjOf (spec : Json) : Json :=
  match lookup spec "paths" with
  | some p => if jsTruthy p then p else Json.obj []
  | none => Json.obj []

/-- The operation extraction loop (source lines 104-118): one descriptor
per `(path, method)` pair whose inner key is one of the seven recognized
method names, in document traversal order, with the method upcased;
other inner keys are skipped. -/
def operations (spec : Json) : List Operation :=
  (objEntries (pathsObjOf spec)).flatMap (fun pe =>
    ((objEntries pe.2).filter (fun me => httpMethods.contains me.1)).map (fun me =>
      { path := pe.1
        method := jsToUpper me.1
        operationId := lookup me.2 "operationId"
        summary := lookup me.2 "summary"
        requestBody := lookup me.2 "requestBody"
        tags := lookup me.2 "tags" }))

/-- The fields of the platform `URL` object read by the source (`protocol`
with trailing colon, `hostname`, `port` — empty when the URL carries no
explicit port — and `pathname`). The WHATWG parser itself is a platform
builtin; it enters the model as an oracle `parse : String → Option
ParsedURL`, `none` standing for the constructor throwing. -/
structure ParsedURL where
  protocol : String
  hostname : String
  port : String
  pathname : String

/-- The protocol/domain/port/path quadruple interpolated into every
sampler. -/
structure UrlParts where
  protocol : String
  domain : String
  port : String
  path : String
deriving Repr, DecidableEq

/-- `url.protocol.replace(':', '')`: remove the first colon. -/
def removeFirstColon : List Char → List Char
  | [] => []
  | ':' :: rest => rest
  | c :: rest => c :: removeFirstColon rest

/-- The regex `^https?:\/\/` strip of the fallback branch
(source line 86). -/
def stripHttpScheme (s : String) : String :=
  if leadsWith "https://".data s.data then String.mk (s.data.drop 8)
  else if leadsWith "http://".data s.data then String.mk (s.data.drop 7)
  else s

/-- `urlParts` (source lines 74-91): parse the configured base URL; on
success take protocol without the colon, hostname, `url.port ||
(https ? '443' : '80')`, and the pathname unless it is bare `/`; on a
parse failure fall back to protocol `https`, the raw string with any
http scheme stripped up to its first slash as domain, and empty port and
path. -/
def urlParts (parse : String → Option ParsedURL) (baseUrl : String) : UrlParts :=
  match parse baseUrl with
  | some url =>
    { protocol := String.mk (removeFirstColon url.protocol.data)
      domain := url.hostname
      port := if url.port ≠ "" then url.port
              else if url.protocol = "https:" then "443" else "80"
      path := if url.pathname ≠ "/" then url.pathname else "" }
  | none =>
    { protocol := "https"
      domain := String.mk (((splitOnSlashChars (stripHttpScheme baseUrl).data).headD []))
      port := ""
      path := "" }

/-- The character class `[^\x7d]` of the placeholder regex: any character
other than the closing brace. -/
def notBrace (d : Char) : Bool := d != '}'

/-- One step of the global regex replace of `pathWithoutParams` (source
line 260), structurally recursive on a fuel that the wrapper fixes to the
string length (an upper bound on the number of scan steps): at a `{`, the
regex `\x7b([^\x7d]+)\x7d` matches up to the next `}` provided at least
one character lies between, the match is rewritten to `$` followed by the
braced group, and scanning resumes after the match; other characters are
copied. -/
def rewritePathChars : Nat → List Char → List Char
  | _, [] => []
  | 0, s => s
  | fuel + 1, c :: rest =>
    if c = '{' then
      let body := rest.takeWhile notBrace
      match rest.dropWhile notBrace with
      | '}' :: tail =>
        if body.isEmpty then '{' :: rewritePathChars fuel rest
        else '$' :: '{' :: (body ++ '}' :: rewritePathChars fuel tail)
      | _ => c :: rest
    else c :: rewritePathChars fuel rest

/-- `op.path.replace(/\x7b([^\x7d]+)\x7d/g, ...)` (source line 260): every
`\x7b name \x7d` group becomes `$\x7b name \x7d`. -/
def pathWithoutParams (s : String) : String :=
  String.mk (rewritePathChars s.data.length s.data)

/-- The guard chain of `generateRequestBody` (source lines 135-138):
`requestBody?.content`, then `content['application/json']`, then a truthy
`schema`; `none` when any step fails (the source then returns an empty
body string). -/
def jsonBodySchema (requestBody : Option Json) : Option Json :=
  match requestBody.bind (fun rb => lookup rb "content") with
  | none => none
  | some content =>
    if jsTruthy content then
      match lookup content "application/json" with
      | none => none
      | some jsonContent =>
        match lookup jsonContent "schema" with
        | none => none
        | some schema => if jsTruthy schema then some schema else none
    else none

/-- JSON string escaping as `JSON.stringify` performs it for the
characters that can occur in the synthesized values (quote, backslash,
newline; other control characters do not arise). -/
def jsonEscapeChars : List Char → List Char
  | [] => []
  | c :: rest =>
    if c = '"' then '\\' :: '"' :: jsonEscapeChars rest
    else if c = '\\' then '\\' :: '\\' :: jsonEscapeChars rest
    else if c = '\n' then '\\' :: 'n' :: jsonEscapeChars rest
    else c :: jsonEscapeChars rest

/-- Decimal rendering of the exact rational standing in for a JavaScript
number. Integral values print as integers, exactly as in JavaScript;
non-integral values print as `numerator/denominator`, abstracting the
JavaScript shortest-decimal form (no claim inspects this text). -/
def ratToChars (q : Rat) : List Char :=
  if q.den = 1 then intToChars q.num
  else intToChars q.num ++ '/' :: natToChars q.den

/-- Two-space-per-level indentation of `JSON.stringify(value, null, 2)`. -/
def indentChars (level : Nat) : List Char := List.replicate (2 * level) ' '

mutual

/-- `JSON.stringify(value, null, 2)` on a synthesized value, at an
indentation level. -/
def renderChars : Nat → Json → List Char
  | _, Json.null => "null".data
  | _, Json.bool true => "true".data
  | _, Json.bool false => "false".data
  | _, Json.num q => ratToChars q
  | _, Json.str s => '"' :: (jsonEscapeChars s.data ++ ['"'])
  | _, Json.arr [] => ['[', ']']
  | level, Json.arr (x :: xs) =>
    '[' :: '\n' :: (renderElems (level + 1) (x :: xs)
      ++ '\n' :: (indentChars level ++ [']']))
  | _, Json.obj [] => ['{', '}']
  | level, Json.obj (f :: fs) =>
    '{' :: '\n' :: (renderFields (level + 1) (f :: fs)
      ++ '\n' :: (indentChars level ++ ['}']))

/-- Array elements of `JSON.stringify(value, null, 2)`, comma-newline
separated. -/
def renderElems : Nat → List Json → List Char
  | _, [] => []
  | level, [x] => indentChars level ++ renderChars level x
  | level, x :: y :: xs =>
    (indentChars level ++ renderChars level x)
      ++ ',' :: '\n' :: renderElems level (y :: xs)

/-- Object members of `JSON.stringify(value, null, 2)`, in synthesis
order. -/
def renderFields : Nat → List (String × Json) → List Char
  | _, [] => []
  | level, [(k, v)] =>
    indentChars level ++ '"' :: (jsonEscapeChars k.data
      ++ '"' :: ':' :: ' ' :: renderChars level v)
  | level, (k, v) :: f :: fs =>
    (indentChars level ++ '"' :: (jsonEscapeChars k.data
      ++ '"' :: ':' :: ' ' :: renderChars level v))
      ++ ',' :: '\n' :: renderFields level (f :: fs)

end

/-- `JSON.stringify(sampleData, null, 2)` (source line 254). -/
def jsonStringify (v : Json) : String := String.mk (renderChars 0 v)

/-- `generateRequestBody` (source lines 134-255): empty text when the
operation declares no truthy `requestBody.content['application/json'].schema`,
otherwise the rendered synthesis of that schema starting from a fresh id
counter; `none` when the synthesis does not return within `fuel`. -/
def generateRequestBody (spec : Json) (fuel : Nat) (rand : Nat → Rat)
    (year : Int) (requestBody : Option Json) : Option String :=
  match jsonBodySchema requestBody with
  | none => some ""
  | some schema =>
    (generateSampleJson spec rand year fuel schema none 1 0).map
      (fun p => jsonStringify p.1)

/-- The attribute-value escape applied to the body before interpolation:
`requestBody.replace(/"/g, '&quot;')` (source line 270). -/
def bodyArgumentValue (t : String) : String :=
  String.mk (t.data.flatMap (fun c => if c = '"' then "&quot;".data else [c]))

/-- The methods for which a request body is generated (source line 261). -/
def httpBodyMethods : List String := ["POST", "PUT", "PATCH"]

/-- The caller-supplied configuration (source lines 11-17). -/
structure JMeterConfig where
  threadCount : Int
  rampUpTime : Int
  loopCount : Int
  baseUrl : String
  testPlanName : String
deriving Repr, DecidableEq

/-- JavaScript template-literal coercion of a parsed value, for the
interpolations the source performs on scalar values (composite coercions
do not arise on the modelled paths). -/
def jsonTemplateString : Json → String
  | .str s => s
  | .num q => String.mk (ratToChars q)
  | .bool true => "true"
  | .bool false => "false"
  | .null => "null"
  | .arr _ => ""
  | .obj _ => "[object Object]"

/-- `value || fallback` selection on an optional parsed value: the coerced
string when the value is present and truthy. -/
def truthyString (o : Option Json) : Option String :=
  match o with
  | some v => if jsTruthy v then some (jsonTemplateString v) else none
  | none => none

/-- The data interpolated into one emitted `HTTPSamplerProxy` element
(source lines 258-296). `body` is the `requestBody` local: `some ""` for
an operation that carries no body, `none` when body synthesis does not
return. `argumentValue` is the escaped body text of the raw-body
`Argument.value` position, present exactly when the truthy-string test on
`requestBody` selects the raw-body branch (source line 264). -/
structure Sampler where
  samplerName : String
  body : Option String
  argumentValue : Option String
  domain : String
  port : String
  protocol : String
  path : String
  method : String
deriving Repr, DecidableEq

/-- The sampler's raw-body flag `HTTPSampler.postBodyRaw`, emitted exactly
when the body text is truthy (source lines 264-265). -/
def postBodyRaw (s : Sampler) : Bool :=
  match s.body with
  | some t => t ≠ ""
  | none => false

/-- Construction of one sampler from an operation (source lines 258-296):
display name `operationId || summary || method + path`, the `{name}` to
`$\x7b name \x7d` path rewrite appended to the shared default path prefix,
a body only for POST/PUT/PATCH, and the shared URL parts. -/
def mkSampler (spec : Json) (parse : String → Option ParsedURL)
    (cfg : JMeterConfig) (fuel : Nat) (rand : Nat → Rat) (year : Int)
    (op : Operation) : Sampler :=
  let up := urlParts parse cfg.baseUrl
  let samplerName :=
    match truthyString op.operationId with
    | some s => s
    | none =>
      match truthyString op.summary with
      | some s => s
      | none => op.method ++ " " ++ op.path
  let requestBody :=
    if httpBodyMethods.contains op.method then
      generateRequestBody spec fuel rand year op.requestBody
    else some ""
  { samplerName := samplerName
    body := requestBody
    argumentValue :=
      match requestBody with
      | some t => if t = "" then none else some (bodyArgumentValue t)
      | none => none
    domain := up.domain
    port := up.port
    protocol := up.protocol
    path := up.path ++ pathWithoutParams op.path
    method := op.method }

/-- The `httpSamplers` mapping (source lines 258-297): one sampler per
extracted operation, in extraction order. -/
def httpSamplers (spec : Json) (parse : String → Option ParsedURL)
    (cfg : JMeterConfig) (fuel : Nat) (rand : Nat → Rat) (year : Int) :
    List Sampler :=
  (operations spec).map (mkSampler spec parse cfg fuel rand year)

/-- `servers?.[0]?.url` of the upload handler (source line 47). -/
def serversFirstUrl (parsedSpec : Json) : Option Json :=
  ((lookup parsedSpec "servers").bind (fun s => jsIndex s "0")).bind
    (fun s0 => lookup s0 "url")

/-- `parsedSpec.schemes?.[0] || 'https'` (source line 50). -/
def hostScheme (parsedSpec : Json) : String :=
  match (lookup parsedSpec "schemes").bind (fun s => jsIndex s "0") with
  | some sc => if jsTruthy sc then jsonTemplateString sc else "https"
  | none => "https"

/-- `parsedSpec.basePath || ''` (source line 51). -/
def hostBasePath (parsedSpec : Json) : String :=
  match lookup parsedSpec "basePath" with
  | some bp => if jsTruthy bp then jsonTemplateString bp else ""
  | none => ""

/-- The `host`/`schemes`/`basePath` branch of the upload handler (source
lines 49-52): `scheme://host + basePath`. -/
def hostDerivedConfig (parsedSpec : Json) (cfg : JMeterConfig) : JMeterConfig :=
  match lookup parsedSpec "host" with
  | some h =>
    if jsTruthy h then
      { cfg with baseUrl :=
          hostScheme parsedSpec ++ "://" ++ jsonTemplateString h
            ++ hostBasePath parsedSpec }
    else cfg
  | none => cfg

/-- The base-URL derivation of `handleFileUpload` (source lines 40-55),
restricted to its effect on the configuration state: a truthy
`servers[0].url` replaces the configured base URL; otherwise a truthy
`host` replaces it with the derived `scheme://host+basePath`; otherwise
the configuration is left unchanged. -/
def handleFileUpload (parsedSpec : Json) (cfg : JMeterConfig) : JMeterConfig :=
  match serversFirstUrl parsedSpec with
  | some u =>
    if jsTruthy u then { cfg with baseUrl := jsonTemplateString u }
    else hostDerivedConfig parsedSpec cfg
  | none => hostDerivedConfig parsedSpec cfg

/-- Whether a schema node, resolved against the document, declares the
given `type` — the value the synthesizer's switch dispatches on. -/
def resolvedTypeIs (spec v : Json) (t : String) : Bool :=
  match lookup (resolveSchema v spec) "type" with
  | some (Json.str s) => s = t
  | _ => false

/-- A declared field that sits on one of the intentionally varying paths
of the source, identified exactly as the claim delimits them by name
substring and field type: an identifier-named (`id` substring,
case-insensitive) field of integer or string type (the shared-counter
branches, source lines 178 and 202), or a calendar month/day-named field
of integer type (the `Math.random` branches, source lines 206-207).
Fields of other types with such names (a boolean `hidden`, a string
`birthday`) take none of these paths. -/
def varyingField (spec : Json) (k : String) (v : Json) : Bool :=
  (includesStr (jsToLower k) "id"
    && (resolvedTypeIs spec v "integer" || resolvedTypeIs spec v "string"))
  || ((includesStr (jsToLower k) "month" || includesStr (jsToLower k) "day")
    && resolvedTypeIs spec v "integer")

/-- No field declared by one `properties` mapping is a varying field. -/
def propsVaryFree (spec : Json) : Json → Bool
  | .obj fs => fs.all (fun kv => !varyingField spec kv.1 kv.2)
  | _ => true

mutual

/-- A document none of whose `properties` mappings (anywhere in the tree,
so in particular anywhere a `$ref` can land) declares an
identifier-named integer/string field or a calendar month/day-named
integer field. -/
def docVaryFree (spec : Json) : Json → Bool
  | .obj fs => fieldsVaryFree spec fs
  | .arr xs => elemsVaryFree spec xs
  | _ => true

/-- `docVaryFree` over the bindings of a mapping: the value under a
`properties` key declares no varying field, and every value is itself
`docVaryFree`. -/
def fieldsVaryFree (spec : Json) : List (String × Json) → Bool
  | [] => true
  | (k, v) :: rest =>
    (if k = "properties" then propsVaryFree spec v else true)
      && docVaryFree spec v && fieldsVaryFree spec rest

/-- `docVaryFree` over the elements of a sequence. -/
def elemsVaryFree (spec : Json) : List Json → Bool
  | [] => true
  | x :: rest => docVaryFree spec x && elemsVaryFree spec rest

end

end SwaggerToJMeter

namespace SwaggerToJMeter

/-! ### Concrete inputs used by counterexamples and witnesses -/

/-- An empty document, for synthesis runs that never follow a pointer. -/
def emptySpec : Json := Json.obj []

/-- A constant random stream. -/
def rand0 : Nat → Rat := fun _ => 0

/-- A second random stream, distinguishable from `rand0`. -/
def rand1 : Nat → Rat := fun _ => 1 / 2

/-- A string schema carrying an enum, synthesized under the property name
"email". -/
def enumEmailSchema : Json :=
  Json.obj [("type", Json.str "string"),
            ("enum", Json.arr [Json.str "red", Json.str "blue"])]

/-- An integer schema declaring `minimum = 0` and `maximum = 0`. -/
def intBoundsSchema : Json :=
  Json.obj [("type", Json.str "integer"),
            ("minimum", Json.num 0), ("maximum", Json.num 0)]

/-- A document whose components table exists but does not bind the key
`Missing`. -/
def missingRefSpec : Json :=
  Json.obj [("components", Json.obj [("schemas", Json.obj [])])]

/-- A reference marker whose pointer has an unresolvable final segment. -/
def missingRefSchema : Json :=
  Json.obj [("$ref", Json.str "#/components/schemas/Missing")]

/-- A configuration whose base URL the caller has already set. -/
def configuredCfg : JMeterConfig :=
  { threadCount := 10, rampUpTime := 10, loopCount := 1,
    baseUrl := "https://configured.example.com",
    testPlanName := "API Performance Test" }

/-- A document declaring a `servers` entry with a URL. -/
def serversSpec : Json :=
  Json.obj [("servers", Json.arr
    [Json.obj [("url", Json.str "https://spec.example.com")]])]

/-- A word character in the sense of the regex class `\w`. -/
def isWordChar (c : Char) : Bool := c.isAlpha || c.isDigit || c = '_'


/-- C10 witness: a one-operation document compiled against an https base
URL with no explicit port, and against an unparseable base URL. -/
def portWitnessSpec : Json :=
  Json.obj [("paths", Json.obj [("/ping", Json.obj [("get", Json.obj [])])])]


/-- A parse oracle returning an https URL with no explicit port. -/
def parseHttpsNoPort : String → Option ParsedURL := fun _ =>
  some { protocol := "https:", hostname := "api.example.com",
         port := "", pathname := "/" }


/-- A POST operation declaring a JSON boolean body schema. -/
def postBoolOp : Operation :=
  { path := "/x", method := "POST", operationId := none, summary := none,
    requestBody := some (Json.obj [("content", Json.obj
      [("application/json", Json.obj
        [("schema", Json.obj [("type", Json.str "boolean")])])])]),
    tags := none }


/-- A reference marker pointing at the self-referential schema `A`. -/
def cyclicRef : Json := Json.obj [("$ref", Json.str "#/components/schemas/A")]


/-- The schema `A`, whose property `self` references `A` itself. -/
def cyclicSchemaA : Json :=
  Json.obj [("type", Json.str "object"),
            ("properties", Json.obj [("self", cyclicRef)])]


/-- A document registering the self-referential schema `A`. -/
def cyclicSpec : Json :=
  Json.obj [("components", Json.obj
    [("schemas", Json.obj [("A", cyclicSchemaA)])])]


/-- Agreement of two synthesis runs started at random-stream indices `i1`
and `i2`: both fail, or both return the same value and counter with their
respective stream indices unmoved (no randomness consumed). -/
def SynthRel (i1 i2 : Nat) (a b : Option (Json × Nat × Nat)) : Prop :=
  (a = none ∧ b = none) ∨ ∃ v c, a = some (v, c, i1) ∧ b = some (v, c, i2)


/-- `SynthRel` for the property-list worker. -/
def SynthRelF (i1 i2 : Nat)
    (a b : Option (List (String × Json) × Nat × Nat)) : Prop :=
  (a = none ∧ b = none) ∨ ∃ vs c, a = some (vs, c, i1) ∧ b = some (vs, c, i2)


/-- A schema for the determinism witness: a string property `status`, a
boolean property `hidden` (its name contains `id` but its type is
boolean, so it is not an identifier field) and a string property
`birthday` (its name contains `day` but its type is string, so it is not
a pseudo-random calendar field). -/
def detWitnessSchema : Json :=
  Json.obj [("type", Json.str "object"),
            ("properties", Json.obj
              [("status", Json.obj [("type", Json.str "string")]),
               ("hidden", Json.obj [("type", Json.str "boolean")]),
               ("birthday", Json.obj [("type", Json.str "string")])])]


/-! ### Shared lemmas -/

/-- A schema with no `$ref` resolves to itself. -/
theorem resolveSchema_no_ref {schema spec : Json}
    (h : lookup schema "$ref" = none) : resolveSchema schema spec = schema := by
  simp [resolveSchema, h]

/-! ### C2: unresolvable internal references -/

/-- C2, counterexample: for the pointer `#/components/schemas/Missing`
whose final segment resolves to no node, the compile does not fail — the
resolver substitutes the empty schema and synthesis continues, returning
`null` for the node. This falsifies the claim that such a pointer yields
an `UnresolvableReference` error and never substitutes an empty schema. -/
theorem unresolvable_ref_substitutes_empty_schema_cex :
    resolveSchema missingRefSchema missingRefSpec = Json.obj []
    ∧ generateSampleJson missingRefSpec rand0 2025 1 missingRefSchema none 1 0
        = some (Json.null, 1, 0) := by
  exact ⟨rfl, rfl⟩

/-- C2, amended: for every internal reference marker whose pointer walk
fails at some segment, `resolveSchema` substitutes the empty schema `{}`
and synthesis of the node continues, producing `null`; no error is
raised. -/
theorem unresolvable_ref_empty_schema_and_null
    (schema spec : Json) (r : String) (fuel idCounter ri : Nat)
    (rand : Nat → Rat) (year : Int) (propertyName : Option String)
    (href : lookup schema "$ref" = some (Json.str r)) (hr : r ≠ "")
    (hwalk : walkRef spec (refSegments r) = none) :
    resolveSchema schema spec = Json.obj []
    ∧ generateSampleJson spec rand year (fuel + 1) schema propertyName idCounter ri
        = some (Json.null, idCounter, ri) := by
  have hres : resolveSchema schema spec = Json.obj [] := by
    simp [resolveSchema, href, hwalk, jsTruthy, hr]
  refine ⟨hres, ?_⟩
  simp [generateSampleJson, generateSampleJsonStep, hres, exampleOrExamples,
    lookup, findField]

/-- C2 witness: the amended theorem applied to the concrete unresolvable
pointer. -/
theorem unresolvable_ref_empty_schema_and_null_witness :
    resolveSchema missingRefSchema missingRefSpec = Json.obj []
    ∧ generateSampleJson missingRefSpec rand0 2025 4 missingRefSchema none 7 3
        = some (Json.null, 7, 3) :=
  unresolvable_ref_empty_schema_and_null missingRefSchema missingRefSpec
    "#/components/schemas/Missing" 3 7 3 rand0 2025 none
    (by rfl) (by decide) (by rfl)

/-! ### C3: enum versus the name-based heuristic -/

/-- C3, counterexample: a string schema with enum `["red", "blue"]`
synthesized under the property name "email" returns the heuristic's fixed
email string, not the enum's first value — the name-based heuristic runs
before the enum check, falsifying the claimed priority. -/
theorem enum_ignored_when_name_heuristic_matches_cex :
    generateSampleJson emptySpec rand0 2025 1 enumEmailSchema (some "email") 1 0
      = some (Json.str "sample@example.com", 1, 0)
    ∧ Json.str "sample@example.com" ≠ Json.str "red" := by
  exact ⟨rfl, by simp⟩

/-- C3, amended: for every string-typed schema with no example/examples,
the first enum value is returned only when the property-name heuristic
does not fire (in particular whenever there is no property name); when a
name-based entry matches, it takes priority over the enum. -/
theorem string_enum_first_when_no_name_match
    (schema spec : Json) (fuel idCounter ri : Nat) (rand : Nat → Rat)
    (year : Int) (propertyName : Option String) (v : Json) (rest : List Json)
    (href : lookup schema "$ref" = none)
    (hex : lookup schema "example" = none)
    (hexs : lookup schema "examples" = none)
    (hty : lookup schema "type" = some (Json.str "string"))
    (hname : ∀ n, propertyName = some n → stringNameValue idCounter n = none)
    (henum : lookup schema "enum" = some (Json.arr (v :: rest))) :
    generateSampleJson spec rand year (fuel + 1) schema propertyName idCounter ri
      = some (v, idCounter, ri) := by
  have hres : resolveSchema schema spec = schema := resolveSchema_no_ref href
  cases propertyName with
  | none =>
    simp [generateSampleJson, generateSampleJsonStep, hres, exampleOrExamples,
      hex, hexs, hty, synthByType, synthString, enumHead, henum]
  | some n =>
    have hn := hname n rfl
    simp [generateSampleJson, generateSampleJsonStep, hres, exampleOrExamples,
      hex, hexs, hty, synthByType, synthString, hn, enumHead, henum]

/-- C3 witness: the amended theorem applied to a string schema with an
enum and a property name matching no heuristic entry. -/
theorem string_enum_first_when_no_name_match_witness :
    generateSampleJson emptySpec rand0 2025 2
      (Json.obj [("type", Json.str "string"),
                 ("enum", Json.arr [Json.str "red", Json.str "blue"])])
      (some "zzz") 1 0
      = some (Json.str "red", 1, 0) :=
  string_enum_first_when_no_name_match
    (Json.obj [("type", Json.str "string"),
               ("enum", Json.arr [Json.str "red", Json.str "blue"])])
    emptySpec 1 1 0 rand0 2025 (some "zzz") (Json.str "red") [Json.str "blue"]
    (by rfl) (by rfl) (by rfl) (by rfl)
    (by intro n h; cases h; rfl) (by rfl)

end SwaggerToJMeter

namespace SwaggerToJMeter

/-! ### C4: base-URL derivation versus a configured base URL -/

/-- C4, counterexample: ingesting a document declaring
`servers[0].url = "https://spec.example.com"` into a configuration whose
base URL is already non-empty changes the configured base URL — the
derivation overwrites the caller's value, falsifying the claim that an
already-set base URL is never overridden. -/
theorem base_url_derivation_overwrites_cex :
    configuredCfg.baseUrl ≠ ""
    ∧ (handleFileUpload serversSpec configuredCfg).baseUrl
        ≠ configuredCfg.baseUrl := by
  exact ⟨by decide, by decide⟩

/-- C4, amended: the derivation is unconditional — whenever the ingested
document declares a truthy `servers[0].url`, the resulting base URL is
that URL, and whenever it instead declares a truthy `host`, the resulting
base URL is the derived `scheme://host+basePath`, in both cases regardless
of any base URL the caller had already configured. -/
theorem base_url_derivation_unconditional
    (parsedSpec : Json) (cfg : JMeterConfig) :
    (∀ u, serversFirstUrl parsedSpec = some u → jsTruthy u = true →
      (handleFileUpload parsedSpec cfg).baseUrl = jsonTemplateString u)
    ∧ ((match serversFirstUrl parsedSpec with
        | some u => jsTruthy u = false
        | none => True) →
      ∀ h, lookup parsedSpec "host" = some h → jsTruthy h = true →
        (handleFileUpload parsedSpec cfg).baseUrl
          = hostScheme parsedSpec ++ "://" ++ jsonTemplateString h
              ++ hostBasePath parsedSpec) := by
  constructor
  · intro u hu htru
    simp [handleFileUpload, hu, htru]
  · intro hserv h hh htru
    cases hs : serversFirstUrl parsedSpec with
    | none => simp [handleFileUpload, hs, hostDerivedConfig, hh, htru]
    | some u =>
      rw [hs] at hserv
      simp [handleFileUpload, hs, hserv, hostDerivedConfig, hh, htru]

/-- C4 witness: the amended theorem applied to the concrete document and
configured base URL of the counterexample. -/
theorem base_url_derivation_unconditional_witness :
    (handleFileUpload serversSpec configuredCfg).baseUrl
      = "https://spec.example.com" :=
  (base_url_derivation_unconditional serversSpec configuredCfg).1
    (Json.str "https://spec.example.com") (by rfl) (by decide)

/-! ### C5: the path placeholder rewrite -/



/-- C5, counterexample: the placeholder rewrite is not idempotent —
applied to the already-rewritten `/users/${id}` it produces
`/users/$${id}`, falsifying the claimed idempotence on already-rewritten
text. -/
theorem path_rewrite_not_idempotent_cex :
    pathWithoutParams (pathWithoutParams "/users/{id}")
      ≠ pathWithoutParams "/users/{id}"
    ∧ pathWithoutParams (pathWithoutParams "/users/{id}") = "/users/$${id}" := by
  exact ⟨by decide, by rfl⟩

/-- `takeWhile notBrace` stops exactly at the closing brace when the body
has none. -/
theorem takeWhile_no_brace {nm : List Char} (h : ∀ c ∈ nm, c ≠ '}')
    (tail : List Char) :
    (nm ++ '}' :: tail).takeWhile notBrace = nm := by
  induction nm with
  | nil => simp [List.takeWhile, notBrace]
  | cons c cs ih =>
    have hc : notBrace c = true := by
      simpa [notBrace] using h c (by simp)
    have ih' := ih (fun d hd => h d (by simp [hd]))
    simp [List.takeWhile, hc, ih']

/-- `dropWhile notBrace` lands exactly on the closing brace when the body
has none. -/
theorem dropWhile_no_brace {nm : List Char} (h : ∀ c ∈ nm, c ≠ '}')
    (tail : List Char) :
    (nm ++ '}' :: tail).dropWhile notBrace = '}' :: tail := by
  induction nm with
  | nil => simp [List.dropWhile, notBrace]
  | cons c cs ih =>
    have hc : notBrace c = true := by
      simpa [notBrace] using h c (by simp)
    have ih' := ih (fun d hd => h d (by simp [hd]))
    simp [List.dropWhile, hc, ih']

/-- One braced group at the end of the input rewrites to the
dollar-braced form, at any positive fuel. -/
theorem rewritePathChars_braced (fuel : Nat) (nm : List Char)
    (hne : nm ≠ []) (h : ∀ c ∈ nm, c ≠ '}') :
    rewritePathChars (fuel + 1) ('{' :: nm ++ ['}'])
      = '$' :: '{' :: nm ++ ['}'] := by
  have htw := takeWhile_no_brace h ([] : List Char)
  have hdw := dropWhile_no_brace h ([] : List Char)
  cases nm with
  | nil => exact absurd rfl hne
  | cons c cs =>
    show rewritePathChars (fuel + 1) ('{' :: ((c :: cs) ++ ['}'])) = _
    simp only [rewritePathChars, if_pos rfl]
    rw [show (c :: cs) ++ ['}'] = (c :: cs) ++ '}' :: ([] : List Char) from rfl,
      htw, hdw]
    simp [List.isEmpty, rewritePathChars]

/-- Every word character differs from the closing brace. -/
theorem isWordChar_ne_brace {c : Char} (h : isWordChar c = true) : c ≠ '}' := by
  intro hc
  subst hc
  simp [isWordChar] at h

/-- C5, amended: on a braced placeholder `\x7b name \x7d` over word
characters the rewrite produces exactly the dollar-braced form
`$\x7b name \x7d`, and this mapping is injective in the identifier; the
rewrite is however not idempotent: reapplied to the dollar-braced form it
prepends a second dollar. -/
theorem path_rewrite_maps_braced_to_dollar_braced
    (nm : List Char) (hne : nm ≠ []) (hw : ∀ c ∈ nm, isWordChar c = true) :
    pathWithoutParams (String.mk ('{' :: nm ++ ['}']))
      = String.mk ('$' :: '{' :: nm ++ ['}'])
    ∧ pathWithoutParams (String.mk ('$' :: '{' :: nm ++ ['}']))
        = String.mk ('$' :: '$' :: '{' :: nm ++ ['}'])
    ∧ ∀ nm2, nm2 ≠ [] → (∀ c ∈ nm2, isWordChar c = true) →
        pathWithoutParams (String.mk ('{' :: nm ++ ['}']))
          = pathWithoutParams (String.mk ('{' :: nm2 ++ ['}'])) → nm = nm2 := by
  have hnb : ∀ c ∈ nm, c ≠ '}' := fun c hc => isWordChar_ne_brace (hw c hc)
  have key : ∀ fuel, rewritePathChars (fuel + 1) ('{' :: nm ++ ['}'])
      = '$' :: '{' :: nm ++ ['}'] := fun fuel => rewritePathChars_braced fuel nm hne hnb
  have hlen : ('{' :: nm ++ ['}']).length = nm.length + 2 := by simp
  refine ⟨?_, ?_, ?_⟩
  · show String.mk (rewritePathChars (String.mk ('{' :: nm ++ ['}'])).data.length
        ('{' :: nm ++ ['}'])) = _
    rw [show (String.mk ('{' :: nm ++ ['}'])).data = '{' :: nm ++ ['}'] from rfl,
      hlen, key]
  · show String.mk (rewritePathChars
        (String.mk ('$' :: '{' :: nm ++ ['}'])).data.length
        ('$' :: '{' :: nm ++ ['}'])) = _
    rw [show (String.mk ('$' :: '{' :: nm ++ ['}'])).data
        = '$' :: '{' :: nm ++ ['}'] from rfl]
    have hl : ('$' :: '{' :: nm ++ ['}']).length = (nm.length + 2) + 1 := by simp
    rw [hl]
    show String.mk ('$' :: rewritePathChars (nm.length + 2) ('{' :: nm ++ ['}'])) = _
    rw [show nm.length + 2 = (nm.length + 1) + 1 from rfl, key]
    rfl
  · intro nm2 hne2 hw2 heq
    have hnb2 : ∀ c ∈ nm2, c ≠ '}' := fun c hc => isWordChar_ne_brace (hw2 c hc)
    have key2 : rewritePathChars (nm2.length + 1 + 1) ('{' :: nm2 ++ ['}'])
        = '$' :: '{' :: nm2 ++ ['}'] := rewritePathChars_braced (nm2.length + 1) nm2 hne2 hnb2
    have hlen2 : ('{' :: nm2 ++ ['}']).length = nm2.length + 2 := by simp
    unfold pathWithoutParams at heq
    rw [show (String.mk ('{' :: nm ++ ['}'])).data = '{' :: nm ++ ['}'] from rfl,
      show (String.mk ('{' :: nm2 ++ ['}'])).data = '{' :: nm2 ++ ['}'] from rfl,
      hlen, hlen2, key (nm.length + 1), key2] at heq
    have hdata : ('$' :: '{' :: nm ++ ['}'] : List Char)
        = '$' :: '{' :: nm2 ++ ['}'] := congrArg String.data heq
    have happ : nm ++ ['}'] = nm2 ++ ['}'] := by
      simpa using hdata
    simpa using congrArg List.dropLast happ

/-- C5 witness: the amended theorem applied to the identifier `id`. -/
theorem path_rewrite_maps_braced_to_dollar_braced_witness :
    pathWithoutParams "{id}" = "${id}"
    ∧ pathWithoutParams "${id}" = "$${id}" := by
  have h := path_rewrite_maps_braced_to_dollar_braced ['i', 'd']
    (by decide) (by decide)
  exact ⟨h.1, h.2.1⟩

end SwaggerToJMeter

namespace SwaggerToJMeter

/-! ### C6: integer bound handling -/

/-- C6, counterexample: an integer schema declaring `minimum = 0` and
`maximum = 0` (no example, no property name) synthesizes `1`, which does
not lie in `[0, 0]` — the claim that the synthesized value lies within
`[minimum, maximum]` whenever both bounds are declared is false. -/
theorem integer_minimum_ignores_maximum_cex :
    generateSampleJson emptySpec rand0 2025 1 intBoundsSchema none 1 0
      = some (Json.num 1, 1, 0)
    ∧ ¬((0 : Rat) ≤ 1 ∧ (1 : Rat) ≤ 0) := by
  exact ⟨rfl, by norm_num⟩

/-- C6, amended: for every integer-typed schema with no example and no
matching property-name heuristic, a declared `minimum` yields
`max minimum 1` with any declared `maximum` ignored; with no numeric
`minimum`, a declared `maximum` yields `min maximum 100`; with neither
bound the result is `1`. -/
theorem integer_bounds_min_priority
    (schema spec : Json) (fuel idCounter ri : Nat) (rand : Nat → Rat)
    (year : Int) (propertyName : Option String)
    (href : lookup schema "$ref" = none)
    (hex : lookup schema "example" = none)
    (hexs : lookup schema "examples" = none)
    (hty : lookup schema "type" = some (Json.str "integer"))
    (hname : ∀ n, propertyName = some n →
      integerNameValue idCounter ri rand year n = none) :
    (∀ m : Rat, getNumField schema "minimum" = some m →
      generateSampleJson spec rand year (fuel + 1) schema propertyName idCounter ri
        = some (Json.num (max m 1), idCounter, ri))
    ∧ (getNumField schema "minimum" = none →
      ∀ mx : Rat, getNumField schema "maximum" = some mx →
        generateSampleJson spec rand year (fuel + 1) schema propertyName idCounter ri
          = some (Json.num (min mx 100), idCounter, ri))
    ∧ (getNumField schema "minimum" = none →
      getNumField schema "maximum" = none →
        generateSampleJson spec rand year (fuel + 1) schema propertyName idCounter ri
          = some (Json.num 1, idCounter, ri)) := by
  have hres : resolveSchema schema spec = schema := resolveSchema_no_ref href
  have hbase : generateSampleJson spec rand year (fuel + 1) schema propertyName idCounter ri
      = synthBounds schema idCounter ri := by
    cases propertyName with
    | none =>
      simp [generateSampleJson, generateSampleJsonStep, hres, exampleOrExamples,
        hex, hexs, hty, synthByType, synthInteger]
    | some n =>
      have hn := hname n rfl
      simp [generateSampleJson, generateSampleJsonStep, hres, exampleOrExamples,
        hex, hexs, hty, synthByType, synthInteger, hn]
  refine ⟨?_, ?_, ?_⟩
  · intro m hm
    rw [hbase]
    simp [synthBounds, hm]
  · intro hm mx hmx
    rw [hbase]
    simp [synthBounds, hm, hmx]
  · intro hm hmx
    rw [hbase]
    simp [synthBounds, hm, hmx]

/-- C6 witness: the amended theorem applied to an integer schema with
`minimum = 0` and `maximum = 0`, and to one with no bounds. -/
theorem integer_bounds_min_priority_witness :
    generateSampleJson emptySpec rand0 2025 3 intBoundsSchema none 1 0
      = some (Json.num (max 0 1), 1, 0)
    ∧ generateSampleJson emptySpec rand0 2025 3
        (Json.obj [("type", Json.str "integer")]) none 1 0
      = some (Json.num 1, 1, 0) :=
  ⟨(integer_bounds_min_priority intBoundsSchema emptySpec 2 1 0 rand0 2025 none
      (by rfl) (by rfl) (by rfl) (by rfl)
      (by intro n h; cases h)).1 0 (by rfl),
   ((integer_bounds_min_priority (Json.obj [("type", Json.str "integer")])
      emptySpec 2 1 0 rand0 2025 none
      (by rfl) (by rfl) (by rfl) (by rfl)
      (by intro n h; cases h)).2.2 (by rfl) (by rfl))⟩

end SwaggerToJMeter

namespace SwaggerToJMeter

/-! ### C7: one sampler per recognized method, uppercased, in order -/

/-- C7: the emitted samplers' method attributes are exactly the recognized
lowercase method keys of the path table, uppercased, in document traversal
order (outer key = path, inner key = method); keys that are not one of the
seven method names contribute no sampler, and nothing fails on them. -/
theorem sampler_methods_uppercased_in_order
    (spec : Json) (parse : String → Option ParsedURL) (cfg : JMeterConfig)
    (fuel : Nat) (rand : Nat → Rat) (year : Int) :
    (httpSamplers spec parse cfg fuel rand year).map Sampler.method
      = (objEntries (pathsObjOf spec)).flatMap (fun pe =>
          ((objEntries pe.2).filter (fun me => httpMethods.contains me.1)).map
            (fun me => jsToUpper me.1)) := by
  simp only [httpSamplers, operations, List.map_flatMap, List.map_map]
  rfl

/-! ### C10: synthesized default ports -/

/-- C10: whenever the configured base URL parses with no explicit port,
every emitted sampler's port attribute is "443" under the `https:` scheme
and "80" under the `http:` scheme; whenever the URL constructor throws,
the port attribute is the empty string. -/
theorem sampler_port_defaults
    (spec : Json) (parse : String → Option ParsedURL) (cfg : JMeterConfig)
    (fuel : Nat) (rand : Nat → Rat) (year : Int) (s : Sampler)
    (hs : s ∈ httpSamplers spec parse cfg fuel rand year) :
    (∀ u, parse cfg.baseUrl = some u → u.port = "" →
      ((u.protocol = "https:" → s.port = "443")
        ∧ (u.protocol = "http:" → s.port = "80")))
    ∧ (parse cfg.baseUrl = none → s.port = "") := by
  obtain ⟨op, -, rfl⟩ := List.mem_map.mp hs
  have hport : (mkSampler spec parse cfg fuel rand year op).port
      = (urlParts parse cfg.baseUrl).port := rfl
  constructor
  · intro u hu hp
    constructor
    · intro hhttps
      rw [hport]
      simp [urlParts, hu, hp, hhttps]
    · intro hhttp
      rw [hport]
      simp [urlParts, hu, hp, hhttp]
  · intro hnone
    rw [hport]
    simp [urlParts, hnone]





theorem sampler_port_defaults_witness :
    (httpSamplers portWitnessSpec parseHttpsNoPort configuredCfg
        1 rand0 2025).map Sampler.port = ["443"] := by
  have hmem : (httpSamplers portWitnessSpec parseHttpsNoPort configuredCfg
      1 rand0 2025).head (by decide)
      ∈ httpSamplers portWitnessSpec parseHttpsNoPort configuredCfg 1 rand0 2025 :=
    List.head_mem _
  have h := ((sampler_port_defaults portWitnessSpec parseHttpsNoPort configuredCfg
      1 rand0 2025 _ hmem).1
    { protocol := "https:", hostname := "api.example.com",
      port := "", pathname := "/" } rfl rfl).1 rfl
  rw [show httpSamplers portWitnessSpec parseHttpsNoPort configuredCfg 1 rand0 2025
      = [(httpSamplers portWitnessSpec parseHttpsNoPort configuredCfg
          1 rand0 2025).head (by decide)] from rfl]
  rw [List.map_singleton, h]

end SwaggerToJMeter

namespace SwaggerToJMeter

/-! ### C8: raw body exactly for body methods with a JSON schema -/

/-- The escaped body text contains no literal double quote. -/
theorem quote_not_mem_bodyArgumentValue (t : String) :
    '"' ∉ (bodyArgumentValue t).data := by
  intro hmem
  rw [show (bodyArgumentValue t).data
      = t.data.flatMap (fun c => if c = '"' then "&quot;".data else [c]) from rfl]
    at hmem
  rcases List.mem_flatMap.mp hmem with ⟨c, -, hc⟩
  by_cases h : c = '"'
  · rw [if_pos h] at hc
    revert hc
    decide
  · rw [if_neg h] at hc
    simp at hc
    exact h hc.symm

/-- The decimal printer never yields the empty digit list at positive
fuel. -/
theorem natToCharsCore_ne_nil (fuel n : Nat) :
    natToCharsCore (fuel + 1) n ≠ [] := by
  rw [show natToCharsCore (fuel + 1) n
      = if n < 10 then [Nat.digitChar n]
        else natToCharsCore fuel (n / 10) ++ [Nat.digitChar (n % 10)] from rfl]
  split
  · simp
  · simp

/-- An integer never prints as the empty string. -/
theorem intToChars_ne_nil (i : Int) : intToChars i ≠ [] := by
  cases i with
  | ofNat n => exact natToCharsCore_ne_nil n n
  | negSucc n => simp [intToChars]

/-- A number never renders as the empty string. -/
theorem ratToChars_ne_nil (q : Rat) : ratToChars q ≠ [] := by
  rw [show ratToChars q
      = if q.den = 1 then intToChars q.num
        else intToChars q.num ++ '/' :: natToChars q.den from rfl]
  split
  · exact intToChars_ne_nil q.num
  · simp

/-- `JSON.stringify(value, null, 2)` never yields the empty string on a
synthesized value. -/
theorem jsonStringify_ne_empty (v : Json) : jsonStringify v ≠ "" := by
  intro h
  have hd : renderChars 0 v = [] := congrArg String.data h
  cases v with
  | null => exact absurd hd (by simp [renderChars])
  | bool b => cases b <;> exact absurd hd (by simp [renderChars])
  | num q =>
    rw [show renderChars 0 (Json.num q) = ratToChars q from by simp [renderChars]] at hd
    exact ratToChars_ne_nil q hd
  | str s => exact absurd hd (by simp [renderChars])
  | arr xs => cases xs <;> exact absurd hd (by simp [renderChars])
  | obj fs => cases fs <;> exact absurd hd (by simp [renderChars])

/-- The `body` projection of a constructed sampler. -/
theorem mkSampler_body (spec : Json) (parse : String → Option ParsedURL)
    (cfg : JMeterConfig) (fuel : Nat) (rand : Nat → Rat) (year : Int)
    (op : Operation) :
    (mkSampler spec parse cfg fuel rand year op).body
      = (if httpBodyMethods.contains op.method then
          generateRequestBody spec fuel rand year op.requestBody
        else some "") := rfl

/-- The `argumentValue` projection of a constructed sampler. -/
theorem mkSampler_argumentValue (spec : Json) (parse : String → Option ParsedURL)
    (cfg : JMeterConfig) (fuel : Nat) (rand : Nat → Rat) (year : Int)
    (op : Operation) :
    (mkSampler spec parse cfg fuel rand year op).argumentValue
      = (match (mkSampler spec parse cfg fuel rand year op).body with
        | some t => if t = "" then none else some (bodyArgumentValue t)
        | none => none) := rfl

/-- C8: a sampler whose body synthesis returns carries the raw-body flag
exactly when the operation's method is POST/PUT/PATCH and the operation
declares a truthy `requestBody.content['application/json'].schema`; and the
body text interpolated into the raw-body argument has every literal double
quote escaped. -/
theorem sampler_raw_body_iff_and_quotes_escaped
    (spec : Json) (parse : String → Option ParsedURL) (cfg : JMeterConfig)
    (fuel : Nat) (rand : Nat → Rat) (year : Int) (op : Operation)
    (hdone : (mkSampler spec parse cfg fuel rand year op).body ≠ none) :
    (postBodyRaw (mkSampler spec parse cfg fuel rand year op) = true
      ↔ (httpBodyMethods.contains op.method = true
          ∧ (jsonBodySchema op.requestBody).isSome = true))
    ∧ ∀ a, (mkSampler spec parse cfg fuel rand year op).argumentValue = some a →
        '"' ∉ a.data := by
  constructor
  · by_cases hm : httpBodyMethods.contains op.method
    · cases hsch : jsonBodySchema op.requestBody with
      | none =>
        have hb : (mkSampler spec parse cfg fuel rand year op).body = some "" := by
          rw [mkSampler_body, if_pos hm]
          simp [generateRequestBody, hsch]
        simp [postBodyRaw, hb, hm, hsch]
      | some schema =>
        cases hgen : generateSampleJson spec rand year fuel schema none 1 0 with
        | none =>
          have hb : (mkSampler spec parse cfg fuel rand year op).body = none := by
            rw [mkSampler_body, if_pos hm]
            simp [generateRequestBody, hsch, hgen]
          exact absurd hb hdone
        | some p =>
          have hb : (mkSampler spec parse cfg fuel rand year op).body
              = some (jsonStringify p.1) := by
            rw [mkSampler_body, if_pos hm]
            simp [generateRequestBody, hsch, hgen]
          have hm' : op.method ∈ httpBodyMethods := by simpa using hm
          simp [postBodyRaw, hb, hm', hsch, jsonStringify_ne_empty p.1]
    · have hb : (mkSampler spec parse cfg fuel rand year op).body = some "" := by
        rw [mkSampler_body, if_neg hm]
      have hm' : op.method ∉ httpBodyMethods := by simpa using hm
      simp [postBodyRaw, hb, hm']
  · intro a ha
    rw [mkSampler_argumentValue] at ha
    cases hb : (mkSampler spec parse cfg fuel rand year op).body with
    | none => rw [hb] at ha; cases ha
    | some t =>
      rw [hb] at ha
      rw [show (match some t with
          | some t => if t = "" then none else some (bodyArgumentValue t)
          | none => (none : Option String))
          = (if t = "" then none else some (bodyArgumentValue t)) from rfl] at ha
      by_cases ht : t = ""
      · rw [if_pos ht] at ha; cases ha
      · rw [if_neg ht] at ha
        have haeq : a = bodyArgumentValue t := by
          injection ha with h; exact h.symm
        rw [haeq]
        exact quote_not_mem_bodyArgumentValue t



/-- C8 witness: the theorem applied to a concrete POST operation with a
JSON schema (whose sampler does carry the raw-body flag). -/
theorem sampler_raw_body_iff_and_quotes_escaped_witness :
    postBodyRaw (mkSampler emptySpec (fun _ => none) configuredCfg
        1 rand0 2025 postBoolOp) = true
      ↔ (httpBodyMethods.contains postBoolOp.method = true
          ∧ (jsonBodySchema postBoolOp.requestBody).isSome = true) :=
  (sampler_raw_body_iff_and_quotes_escaped emptySpec (fun _ => none)
    configuredCfg 1 rand0 2025 postBoolOp (by decide)).1

end SwaggerToJMeter

namespace SwaggerToJMeter

/-! ### C1: cyclic schema graphs -/







/-- Synthesis of the self-reference marker does not return at any
recursion depth: each unfolding resolves the pointer back to `A` and
recurses into the same marker. -/
theorem cyclic_ref_gen_none (rand : Nat → Rat) (year : Int) :
    ∀ fuel name idCounter ri,
      generateSampleJson cyclicSpec rand year fuel cyclicRef name idCounter ri
        = none := by
  intro fuel
  induction fuel with
  | zero => intro name idCounter ri; rfl
  | succ fuel ih =>
    intro name idCounter ri
    show (genProps (generateSampleJson cyclicSpec rand year fuel)
        [("self", cyclicRef)] idCounter ri).map
        (fun p => (Json.obj p.1, p.2.1, p.2.2)) = none
    simp [genProps, ih (some "self") idCounter ri]

/-- C1: the source has no cycle detection — for the schema `A` whose
property references `A` itself, sample synthesis does not return within
any recursion depth bound (the fuel-indexed embedding yields `none` at
every fuel), so in particular no field of a cyclic graph ever synthesizes
to `null` by cycle detection; the source recursion overflows the stack
instead of terminating. This refutes the claimed bounded-depth, `null`
producing cycle policy. -/
theorem cyclic_schema_synthesis_never_returns
    (fuel idCounter ri : Nat) (name : Option String) (rand : Nat → Rat)
    (year : Int) :
    generateSampleJson cyclicSpec rand year fuel cyclicSchemaA name idCounter ri
      = none := by
  cases fuel with
  | zero => rfl
  | succ fuel =>
    show (genProps (generateSampleJson cyclicSpec rand year fuel)
        [("self", cyclicRef)] idCounter ri).map
        (fun p => (Json.obj p.1, p.2.1, p.2.2)) = none
    simp [genProps, cyclic_ref_gen_none rand year fuel (some "self") idCounter ri]

end SwaggerToJMeter

namespace SwaggerToJMeter

/-! ### C9: determinism of synthesis — hereditary document lemmas -/

/-- Every binding of a `fieldsVaryFree` mapping has a `docVaryFree`
value. -/
theorem fieldsVaryFree_mem {spec : Json} {fs : List (String × Json)}
    (h : fieldsVaryFree spec fs = true)
    {kv : String × Json} (hkv : kv ∈ fs) : docVaryFree spec kv.2 = true := by
  induction fs with
  | nil => cases hkv
  | cons f rest ih =>
    rw [show fieldsVaryFree spec (f :: rest)
        = ((if f.1 = "properties" then propsVaryFree spec f.2 else true)
            && docVaryFree spec f.2 && fieldsVaryFree spec rest) from rfl] at h
    simp only [Bool.and_eq_true] at h
    rcases List.mem_cons.mp hkv with rfl | hmem
    · exact h.1.2
    · exact ih h.2 hmem

/-- A field found in a `fieldsVaryFree` mapping is `docVaryFree`. -/
theorem findField_varyFree {spec : Json} {fs : List (String × Json)}
    (h : fieldsVaryFree spec fs = true)
    {k : String} {v : Json} (hf : findField fs k = some v) :
    docVaryFree spec v = true := by
  induction fs with
  | nil => cases hf
  | cons f rest ih =>
    rw [show fieldsVaryFree spec (f :: rest)
        = ((if f.1 = "properties" then propsVaryFree spec f.2 else true)
            && docVaryFree spec f.2 && fieldsVaryFree spec rest) from rfl] at h
    simp only [Bool.and_eq_true] at h
    rw [show findField (f :: rest) k
        = (if f.1 = k then some f.2 else findField rest k) from by
          cases f; rfl] at hf
    by_cases hk : f.1 = k
    · rw [if_pos hk] at hf
      cases hf
      exact h.1.2
    · rw [if_neg hk] at hf
      exact ih h.2 hf

/-- The value bound at `properties` in a `fieldsVaryFree` mapping
declares no varying field and is itself `docVaryFree`. -/
theorem findField_propsVaryFree {spec : Json} {fs : List (String × Json)}
    (h : fieldsVaryFree spec fs = true)
    {v : Json} (hf : findField fs "properties" = some v) :
    propsVaryFree spec v = true ∧ docVaryFree spec v = true := by
  induction fs with
  | nil => cases hf
  | cons f rest ih =>
    rw [show fieldsVaryFree spec (f :: rest)
        = ((if f.1 = "properties" then propsVaryFree spec f.2 else true)
            && docVaryFree spec f.2 && fieldsVaryFree spec rest) from rfl] at h
    simp only [Bool.and_eq_true] at h
    rw [show findField (f :: rest) "properties"
        = (if f.1 = "properties" then some f.2 else findField rest "properties") from by
          cases f; rfl] at hf
    by_cases hk : f.1 = "properties"
    · rw [if_pos hk] at hf
      cases hf
      refine ⟨?_, h.1.2⟩
      have := h.1.1
      rwa [if_pos hk] at this
    · rw [if_neg hk] at hf
      exact ih h.2 hf

/-- An element of an `elemsVaryFree` sequence is `docVaryFree`. -/
theorem elemsVaryFree_get {spec : Json} {xs : List Json}
    (h : elemsVaryFree spec xs = true)
    {i : Nat} {v : Json} (hg : xs.get? i = some v) :
    docVaryFree spec v = true := by
  induction xs generalizing i with
  | nil => cases hg
  | cons x rest ih =>
    rw [show elemsVaryFree spec (x :: rest)
        = (docVaryFree spec x && elemsVaryFree spec rest) from rfl] at h
    simp only [Bool.and_eq_true] at h
    cases i with
    | zero =>
      cases hg
      exact h.1
    | succ i => exact ih h.2 hg

/-- A property read on a `docVaryFree` value yields a `docVaryFree`
value. -/
theorem lookup_varyFree {spec j : Json} (h : docVaryFree spec j = true)
    {k : String} {v : Json} (hl : lookup j k = some v) :
    docVaryFree spec v = true := by
  cases j with
  | obj fs => exact findField_varyFree h hl
  | null => cases hl
  | bool b => cases hl
  | num q => cases hl
  | str s => cases hl
  | arr xs => cases hl

/-- Bracket access on a `docVaryFree` value yields a `docVaryFree`
value. -/
theorem jsIndex_varyFree {spec j : Json} (h : docVaryFree spec j = true)
    {seg : String} {v : Json} (hl : jsIndex j seg = some v) :
    docVaryFree spec v = true := by
  cases j with
  | obj fs => exact findField_varyFree h hl
  | arr xs =>
    rw [show jsIndex (Json.arr xs) seg
        = (match digitsToNat? seg.data with
          | some i => xs.get? i
          | none => none) from rfl] at hl
    cases hd : digitsToNat? seg.data with
    | none => rw [hd] at hl; cases hl
    | some i =>
      rw [hd] at hl
      exact elemsVaryFree_get h hl
  | null => cases hl
  | bool b => cases hl
  | num q => cases hl
  | str s => cases hl

/-- Folding the segment walk from a failed step stays failed. -/
theorem foldl_jsIndex_none (segs : List String) :
    segs.foldl (fun acc seg => acc.bind (fun j => jsIndex j seg)) none = none := by
  induction segs with
  | nil => rfl
  | cons s rest ih =>
    rw [List.foldl_cons]
    exact ih

/-- The pointer walk preserves `docVaryFree`. -/
theorem walkRef_varyFree {spec root : Json} (h : docVaryFree spec root = true)
    (segs : List String) {v : Json} (hw : walkRef root segs = some v) :
    docVaryFree spec v = true := by
  rw [walkRef] at hw
  induction segs generalizing root with
  | nil =>
    cases hw
    exact h
  | cons seg rest ih =>
    rw [List.foldl_cons] at hw
    cases hj : jsIndex root seg with
    | none =>
      rw [show (some root).bind (fun j => jsIndex j seg) = jsIndex root seg
          from rfl, hj, foldl_jsIndex_none rest] at hw
      cases hw
    | some j =>
      rw [show (some root).bind (fun j => jsIndex j seg) = jsIndex root seg
          from rfl, hj] at hw
      exact ih (jsIndex_varyFree h hj) hw

/-- Schema resolution preserves `docVaryFree`. -/
theorem resolveSchema_varyFree {spec schema : Json}
    (hspec : docVaryFree spec spec = true)
    (hschema : docVaryFree spec schema = true) :
    docVaryFree spec (resolveSchema schema spec) = true := by
  cases hr : lookup schema "$ref" with
  | none =>
    rw [resolveSchema_no_ref hr]
    exact hschema
  | some r =>
    simp only [resolveSchema, hr]
    by_cases ht : jsTruthy r = true
    · rw [if_pos ht]
      cases r with
      | str refStr =>
        show docVaryFree spec (match walkRef spec (refSegments refStr) with
          | some v => if jsTruthy v = true then v else Json.obj []
          | none => Json.obj []) = true
        cases hw : walkRef spec (refSegments refStr) with
        | none => rfl
        | some v =>
          show docVaryFree spec (if jsTruthy v = true then v else Json.obj []) = true
          by_cases hv : jsTruthy v = true
          · rw [if_pos hv]
            exact walkRef_varyFree hspec _ hw
          · rw [if_neg hv]
            rfl
      | null => rfl
      | bool b => rfl
      | num q => rfl
      | arr xs => rfl
      | obj fs => rfl
    · rw [if_neg ht]
      exact hschema

/-- The declared properties of a `docVaryFree` resolved schema are free
of varying fields and have `docVaryFree` values. -/
theorem props_fields_varyFree {spec R : Json} (h : docVaryFree spec R = true)
    {fs : List (String × Json)} (hp : lookup R "properties" = some (Json.obj fs)) :
    ∀ kv ∈ fs, varyingField spec kv.1 kv.2 = false ∧ docVaryFree spec kv.2 = true := by
  intro kv hkv
  cases R with
  | obj rfs =>
    have hfp := findField_propsVaryFree h hp
    constructor
    · have := hfp.1
      rw [show propsVaryFree spec (Json.obj fs)
          = fs.all (fun kv => !varyingField spec kv.1 kv.2) from rfl] at this
      have := List.all_eq_true.mp this kv hkv
      simpa using this
    · exact fieldsVaryFree_mem hfp.2 hkv
  | null => cases hp
  | bool b => cases hp
  | num q => cases hp
  | str s => cases hp
  | arr xs => cases hp

/-- In the integer dispatch branch, a field name that is not a varying
field has dead month/day branches. -/
theorem varyingField_int {spec sch : Json} {n : String}
    (hv : varyingField spec n sch = false)
    (hty : lookup (resolveSchema sch spec) "type" = some (Json.str "integer")) :
    includesStr (jsToLower n) "month" = false
      ∧ includesStr (jsToLower n) "day" = false := by
  have hint : resolvedTypeIs spec sch "integer" = true := by
    simp [resolvedTypeIs, hty]
  constructor
  · by_contra hc
    rw [Bool.not_eq_false] at hc
    simp [varyingField, hint, hc] at hv
  · by_contra hc
    rw [Bool.not_eq_false] at hc
    simp [varyingField, hint, hc] at hv

end SwaggerToJMeter

namespace SwaggerToJMeter

/-! ### C9: determinism of synthesis — branch lemmas -/





/-- The `string` case never touches the random stream: its result value
and counter are independent of the stream index, which passes through. -/
theorem synthString_shape (R : Json) (name : Option String) (ctr : Nat) :
    ∃ v c, ∀ i, synthString R name ctr i = some (v, c, i) := by
  cases name with
  | none =>
    cases he : enumHead R with
    | some v => exact ⟨v, ctr, fun i => by simp [synthString, he]⟩
    | none => exact ⟨Json.str "sample", ctr, fun i => by simp [synthString, he]⟩
  | some n =>
    cases h : stringNameValue ctr n with
    | some vc =>
      obtain ⟨v, c⟩ := vc
      exact ⟨v, c, fun i => by simp [synthString, h]⟩
    | none =>
      cases he : enumHead R with
      | some v => exact ⟨v, ctr, fun i => by simp [synthString, h, he]⟩
      | none => exact ⟨Json.str "sample", ctr, fun i => by simp [synthString, h, he]⟩

/-- The bound fallback never touches the random stream. -/
theorem synthBounds_shape (R : Json) (ctr : Nat) :
    ∃ v, ∀ i, synthBounds R ctr i = some (v, ctr, i) := by
  cases hm : getNumField R "minimum" with
  | some m => exact ⟨Json.num (max m 1), fun i => by simp [synthBounds, hm]⟩
  | none =>
    cases hx : getNumField R "maximum" with
    | some mx => exact ⟨Json.num (min mx 100), fun i => by simp [synthBounds, hm, hx]⟩
    | none => exact ⟨Json.num 1, fun i => by simp [synthBounds, hm, hx]⟩

/-- The `number` case never touches the random stream. -/
theorem synthNumber_shape (R : Json) (name : Option String) (ctr : Nat) :
    ∃ v c, ∀ i, synthNumber R name ctr i = some (v, c, i) := by
  cases name with
  | none =>
    obtain ⟨v, hv⟩ := synthBounds_shape R ctr
    exact ⟨v, ctr, fun i => by simp [synthNumber, hv i]⟩
  | some n =>
    cases h : numberNameValue n with
    | some v => exact ⟨v, ctr, fun i => by simp [synthNumber, h]⟩
    | none =>
      obtain ⟨v, hv⟩ := synthBounds_shape R ctr
      exact ⟨v, ctr, fun i => by simp [synthNumber, h, hv i]⟩

/-- The `boolean` case never touches the random stream. -/
theorem synthBoolean_shape (name : Option String) (ctr : Nat) :
    ∃ v, ∀ i, synthBoolean name ctr i = some (v, ctr, i) := by
  cases name with
  | none => exact ⟨Json.bool true, fun i => by simp [synthBoolean]⟩
  | some n =>
    cases h : booleanNameValue n with
    | some v => exact ⟨v, fun i => by simp [synthBoolean, h]⟩
    | none => exact ⟨Json.bool true, fun i => by simp [synthBoolean, h]⟩

/-- With the month/day branches dead, the `integer` heuristic is
independent of the random stream and leaves the index unmoved (the `id`
branch reads only the deterministically threaded counter, so it needs no
exclusion). -/
theorem integerNameValue_shape {n : String}
    (h2 : includesStr (jsToLower n) "month" = false)
    (h3 : includesStr (jsToLower n) "day" = false)
    (ctr : Nat) (year : Int) :
    (∀ i rand, integerNameValue ctr i rand year n = none)
    ∨ ∃ v c, ∀ i rand, integerNameValue ctr i rand year n = some (v, c, i) := by
  by_cases h1 : includesStr (jsToLower n) "id" = true
  · exact Or.inr ⟨Json.num ctr, ctr + 1, fun i rand => by
      simp [integerNameValue, h1]⟩
  · rw [Bool.not_eq_true] at h1
    by_cases h4 : (includesStr (jsToLower n) "count"
        || includesStr (jsToLower n) "quantity") = true
    · exact Or.inr ⟨Json.num 5, ctr, fun i rand => by
        simp [integerNameValue, h1, h4]⟩
    · by_cases h5 : includesStr (jsToLower n) "age" = true
      · exact Or.inr ⟨Json.num 25, ctr, fun i rand => by
          simp [integerNameValue, h1, h4, h5]⟩
      · by_cases h6 : includesStr (jsToLower n) "year" = true
        · exact Or.inr ⟨Json.num year, ctr, fun i rand => by
            simp [integerNameValue, h1, h4, h5, h6]⟩
        · by_cases h7 : (includesStr (jsToLower n) "price"
              || includesStr (jsToLower n) "amount") = true
          · exact Or.inr ⟨Json.num 100, ctr, fun i rand => by
              simp [integerNameValue, h1, h2, h3, h4, h5, h6, h7]⟩
          · exact Or.inl (fun i rand => by
              simp [integerNameValue, h1, h2, h3, h4, h5, h6, h7])

/-- The `integer` case under a name whose month/day branches are dead:
value and counter agree across runs with different random streams, with
the stream index passing through. -/
theorem synthInteger_rel (R : Json) (name : Option String) (ctr : Nat)
    (year : Int)
    (hname : ∀ n, name = some n →
      includesStr (jsToLower n) "month" = false
        ∧ includesStr (jsToLower n) "day" = false) :
    ∃ v c, ∀ i rand, synthInteger R name ctr i rand year = some (v, c, i) := by
  cases name with
  | none =>
    obtain ⟨v, hv⟩ := synthBounds_shape R ctr
    exact ⟨v, ctr, fun i rand => by simp [synthInteger, hv i]⟩
  | some n =>
    obtain ⟨h2, h3⟩ := hname n rfl
    rcases integerNameValue_shape h2 h3 ctr year with h | ⟨v, c, h⟩
    · obtain ⟨v, hv⟩ := synthBounds_shape R ctr
      exact ⟨v, ctr, fun i rand => by simp [synthInteger, h i rand, hv i]⟩
    · exact ⟨v, c, fun i rand => by simp [synthInteger, h i rand]⟩

end SwaggerToJMeter

namespace SwaggerToJMeter

/-- Two property-list passes driven by run-related synthesizers agree. -/
theorem genProps_rel (spec : Json)
    (genF1 genF2 : Json → Option String → Nat → Nat → Option (Json × Nat × Nat))
    (hrel : ∀ sch nm ctr i1 i2, docVaryFree spec sch = true →
      (∀ n, nm = some n → varyingField spec n sch = false) →
      SynthRel i1 i2 (genF1 sch nm ctr i1) (genF2 sch nm ctr i2)) :
    ∀ fs ctr i1 i2,
      (∀ kv ∈ fs, varyingField spec kv.1 kv.2 = false
        ∧ docVaryFree spec kv.2 = true) →
      SynthRelF i1 i2 (genProps genF1 fs ctr i1) (genProps genF2 fs ctr i2) := by
  intro fs
  induction fs with
  | nil =>
    intro ctr i1 i2 h
    exact Or.inr ⟨[], ctr, rfl, rfl⟩
  | cons kv rest ih =>
    intro ctr i1 i2 h
    obtain ⟨k, v⟩ := kv
    have hkv := h (k, v) (by simp)
    have hrest : ∀ kv ∈ rest, varyingField spec kv.1 kv.2 = false
        ∧ docVaryFree spec kv.2 = true :=
      fun kv hm => h kv (List.mem_cons_of_mem _ hm)
    have h1 := hrel v (some k) ctr i1 i2 hkv.2
      (fun n hn => by cases hn; exact hkv.1)
    rcases h1 with ⟨ha, hb⟩ | ⟨val, c, ha, hb⟩
    · exact Or.inl ⟨by simp [genProps, ha], by simp [genProps, hb]⟩
    · rcases ih c i1 i2 hrest with ⟨ha2, hb2⟩ | ⟨vals, c2, ha2, hb2⟩
      · exact Or.inl ⟨by simp [genProps, ha, ha2], by simp [genProps, hb, hb2]⟩
      · exact Or.inr ⟨(k, val) :: vals, c2,
          by simp [genProps, ha, ha2], by simp [genProps, hb, hb2]⟩

/-- The type dispatch relates two runs with different random streams,
provided the recursive occurrences do. -/
theorem synthByType_rel (spec : Json)
    (rand1 rand2 : Nat → Rat) (year : Int)
    (genF1 genF2 : Json → Option String → Nat → Nat → Option (Json × Nat × Nat))
    (hrel : ∀ sch nm ctr i1 i2, docVaryFree spec sch = true →
      (∀ n, nm = some n → varyingField spec n sch = false) →
      SynthRel i1 i2 (genF1 sch nm ctr i1) (genF2 sch nm ctr i2))
    (R : Json) (hdR : docVaryFree spec R = true) (ty : String)
    (nm : Option String) (ctr i1 i2 : Nat)
    (hnm : ty = "integer" → ∀ n, nm = some n →
      includesStr (jsToLower n) "month" = false
        ∧ includesStr (jsToLower n) "day" = false) :
    SynthRel i1 i2
      (synthByType rand1 year genF1 R ty nm ctr i1)
      (synthByType rand2 year genF2 R ty nm ctr i2) := by
  by_cases hobj : ty = "object"
  · simp only [synthByType, if_pos hobj]
    cases hp : lookup R "properties" with
    | none => exact Or.inr ⟨Json.obj [], ctr, rfl, rfl⟩
    | some p =>
      cases p with
      | obj fs =>
        show SynthRel i1 i2
          ((genProps genF1 fs ctr i1).map (fun p => (Json.obj p.1, p.2.1, p.2.2)))
          ((genProps genF2 fs ctr i2).map (fun p => (Json.obj p.1, p.2.1, p.2.2)))
        have hfs := props_fields_varyFree hdR hp
        rcases genProps_rel spec genF1 genF2 hrel fs ctr i1 i2 hfs with
          ⟨ha, hb⟩ | ⟨vals, c2, ha, hb⟩
        · exact Or.inl ⟨by rw [ha]; rfl, by rw [hb]; rfl⟩
        · exact Or.inr ⟨Json.obj vals, c2, by rw [ha]; rfl, by rw [hb]; rfl⟩
      | null => exact Or.inr ⟨Json.obj [], ctr, rfl, rfl⟩
      | bool b => exact Or.inr ⟨Json.obj [], ctr, rfl, rfl⟩
      | num q => exact Or.inr ⟨Json.obj [], ctr, rfl, rfl⟩
      | str s2 => exact Or.inr ⟨Json.obj [], ctr, rfl, rfl⟩
      | arr xs => exact Or.inr ⟨Json.obj [], ctr, rfl, rfl⟩
  · by_cases harr : ty = "array"
    · simp only [synthByType, if_neg hobj, if_pos harr]
      cases hit : lookup R "items" with
      | none => exact Or.inr ⟨Json.arr [], ctr, rfl, rfl⟩
      | some items =>
        show SynthRel i1 i2
          (if jsTruthy items = true then
            (genF1 items none ctr i1).map (fun p => (Json.arr [p.1], p.2.1, p.2.2))
          else some (Json.arr [], ctr, i1))
          (if jsTruthy items = true then
            (genF2 items none ctr i2).map (fun p => (Json.arr [p.1], p.2.1, p.2.2))
          else some (Json.arr [], ctr, i2))
        by_cases htru : jsTruthy items = true
        · rw [if_pos htru, if_pos htru]
          rcases hrel items none ctr i1 i2 (lookup_varyFree hdR hit)
              (fun n hn => by cases hn) with ⟨ha, hb⟩ | ⟨v, c, ha, hb⟩
          · exact Or.inl ⟨by rw [ha]; rfl, by rw [hb]; rfl⟩
          · exact Or.inr ⟨Json.arr [v], c, by rw [ha]; rfl, by rw [hb]; rfl⟩
        · rw [if_neg htru, if_neg htru]
          exact Or.inr ⟨Json.arr [], ctr, rfl, rfl⟩
    · by_cases hstr : ty = "string"
      · simp only [synthByType, if_neg hobj, if_neg harr, if_pos hstr]
        obtain ⟨v, c, hv⟩ := synthString_shape R nm ctr
        exact Or.inr ⟨v, c, hv i1, hv i2⟩
      · by_cases hint : ty = "integer"
        · simp only [synthByType, if_neg hobj, if_neg harr, if_neg hstr,
            if_pos hint]
          obtain ⟨v, c, hv⟩ := synthInteger_rel R nm ctr year (hnm hint)
          exact Or.inr ⟨v, c, hv i1 rand1, hv i2 rand2⟩
        · by_cases hnum : ty = "number"
          · simp only [synthByType, if_neg hobj, if_neg harr, if_neg hstr,
              if_neg hint, if_pos hnum]
            obtain ⟨v, c, hv⟩ := synthNumber_shape R nm ctr
            exact Or.inr ⟨v, c, hv i1, hv i2⟩
          · by_cases hbool : ty = "boolean"
            · simp only [synthByType, if_neg hobj, if_neg harr, if_neg hstr,
                if_neg hint, if_neg hnum, if_pos hbool]
              obtain ⟨v, hv⟩ := synthBoolean_shape nm ctr
              exact Or.inr ⟨v, ctr, hv i1, hv i2⟩
            · simp only [synthByType, if_neg hobj, if_neg harr, if_neg hstr,
                if_neg hint, if_neg hnum, if_neg hbool]
              exact Or.inr ⟨Json.null, ctr, rfl, rfl⟩

/-- One unfolding of the synthesizer relates two runs with different
random streams, provided the recursive occurrences do. -/
theorem generateSampleJsonStep_rel
    (spec : Json) (rand1 rand2 : Nat → Rat) (year : Int)
    (genF1 genF2 : Json → Option String → Nat → Nat → Option (Json × Nat × Nat))
    (hspec : docVaryFree spec spec = true)
    (hrel : ∀ sch nm ctr i1 i2, docVaryFree spec sch = true →
      (∀ n, nm = some n → varyingField spec n sch = false) →
      SynthRel i1 i2 (genF1 sch nm ctr i1) (genF2 sch nm ctr i2))
    (sch : Json) (nm : Option String) (ctr i1 i2 : Nat)
    (hsch : docVaryFree spec sch = true)
    (hnm : ∀ n, nm = some n → varyingField spec n sch = false) :
    SynthRel i1 i2
      (generateSampleJsonStep spec rand1 year genF1 sch nm ctr i1)
      (generateSampleJsonStep spec rand2 year genF2 sch nm ctr i2) := by
  have hdR : docVaryFree spec (resolveSchema sch spec) = true :=
    resolveSchema_varyFree hspec hsch
  simp only [generateSampleJsonStep]
  cases hex : exampleOrExamples (resolveSchema sch spec) with
  | some ex =>
    exact Or.inr ⟨ex, ctr, rfl, rfl⟩
  | none =>
    cases hty : lookup (resolveSchema sch spec) "type" with
    | none =>
      exact Or.inr ⟨Json.null, ctr, rfl, rfl⟩
    | some t =>
      cases t with
      | str s =>
        refine synthByType_rel spec rand1 rand2 year genF1 genF2 hrel
          (resolveSchema sch spec) hdR s nm ctr i1 i2 ?_
        intro hs n hn
        refine varyingField_int (hnm n hn) ?_
        rw [← hs]
        exact hty
      | null => exact Or.inr ⟨Json.null, ctr, rfl, rfl⟩
      | bool b => exact Or.inr ⟨Json.null, ctr, rfl, rfl⟩
      | num q => exact Or.inr ⟨Json.null, ctr, rfl, rfl⟩
      | arr xs => exact Or.inr ⟨Json.null, ctr, rfl, rfl⟩
      | obj fs => exact Or.inr ⟨Json.null, ctr, rfl, rfl⟩

end SwaggerToJMeter

namespace SwaggerToJMeter

/-- At every recursion depth, two synthesis runs over a document and
schema declaring no identifier-named integer/string fields and no
month/day-named integer fields relate: same result value and counter,
and neither consumes randomness. -/
theorem generateSampleJson_rel
    (spec : Json) (rand1 rand2 : Nat → Rat) (year : Int)
    (hspec : docVaryFree spec spec = true) :
    ∀ fuel sch nm ctr i1 i2, docVaryFree spec sch = true →
      (∀ n, nm = some n → varyingField spec n sch = false) →
      SynthRel i1 i2
        (generateSampleJson spec rand1 year fuel sch nm ctr i1)
        (generateSampleJson spec rand2 year fuel sch nm ctr i2) := by
  intro fuel
  induction fuel with
  | zero =>
    intro sch nm ctr i1 i2 _ _
    exact Or.inl ⟨rfl, rfl⟩
  | succ fuel ih =>
    intro sch nm ctr i1 i2 hsch hnm
    exact generateSampleJsonStep_rel spec rand1 rand2 year
      (generateSampleJson spec rand1 year fuel)
      (generateSampleJson spec rand2 year fuel)
      hspec ih sch nm ctr i1 i2 hsch hnm

/-- C9: sample synthesis is deterministic on documents and schemas whose
`properties` mappings declare no identifier-named field of integer or
string type and no month/day-named field of integer type — the claim's
excluded fields, identified by name substring and resolved field type
exactly as the source's shared-counter and `Math.random` branches are
keyed (a boolean property `hidden` or a string property `birthday` is
inside the covered domain): two runs over the same schema with the same
property name — each starting from the fresh per-call id counter and its
own random stream — return identical results at every recursion depth. -/
theorem synthesis_deterministic_without_id_month_day
    (spec schema : Json) (propertyName : Option String) (fuel : Nat)
    (rand1 rand2 : Nat → Rat) (year : Int)
    (hspec : docVaryFree spec spec = true)
    (hschema : docVaryFree spec schema = true)
    (hname : ∀ n, propertyName = some n → varyingField spec n schema = false) :
    generateSampleJson spec rand1 year fuel schema propertyName 1 0
      = generateSampleJson spec rand2 year fuel schema propertyName 1 0 := by
  rcases generateSampleJson_rel spec rand1 rand2 year hspec fuel schema
      propertyName 1 0 0 hschema hname with ⟨h1, h2⟩ | ⟨v, c, h1, h2⟩
  · rw [h1, h2]
  · rw [h1, h2]

/-- C9 witness: the theorem applied to a concrete schema — including a
boolean property `hidden` and a string property `birthday`, whose names
contain `id`/`day` but whose types keep them off the counter and random
paths — and two concrete distinct random streams. -/
theorem synthesis_deterministic_without_id_month_day_witness :
    generateSampleJson emptySpec rand0 2025 3 detWitnessSchema none 1 0
      = generateSampleJson emptySpec rand1 2025 3 detWitnessSchema none 1 0 :=
  synthesis_deterministic_without_id_month_day emptySpec detWitnessSchema
    none 3 rand0 rand1 2025 (by rfl) (by rfl) (by intro n h; cases h)

end SwaggerToJMeter
